import Mathlib

/-!
# Verification of the CNCF people caching service

Shallow embedding of `src/main.rs`: a small HTTP service that republishes a
JSON dataset from a local snapshot, a periodically refreshed remote snapshot,
and an embedded example payload, with ETag / conditional-GET caching.

Machine integers are modelled as `Nat` with explicit reduction modulo `2^32`
(resp. `2^8`) where the Rust code uses `u32` / `u8`. Byte strings are
`List Nat`. Fallible operations take their outcome (file read result, HTTP
fetch result) as an explicit argument.
-/

/-! ## SHA-256 (the `sha2` crate's `Sha256`, FIPS 180-4) -/

/-- Truncation to a 32-bit word, as performed implicitly by `u32` arithmetic. -/
def w32 (n : Nat) : Nat := n % 4294967296

/-- 32-bit right rotation. -/
def rotr32 (n x : Nat) : Nat := w32 ((x >>> n) ||| (x <<< (32 - n)))

/-- SHA-256 `Ch` function. -/
def shaCh (x y z : Nat) : Nat := (x &&& y) ^^^ ((x ^^^ 4294967295) &&& z)

/-- SHA-256 `Maj` function. -/
def shaMaj (x y z : Nat) : Nat := (x &&& y) ^^^ (x &&& z) ^^^ (y &&& z)

/-- SHA-256 big sigma 0. -/
def bigSigma0 (x : Nat) : Nat := rotr32 2 x ^^^ rotr32 13 x ^^^ rotr32 22 x

/-- SHA-256 big sigma 1. -/
def bigSigma1 (x : Nat) : Nat := rotr32 6 x ^^^ rotr32 11 x ^^^ rotr32 25 x

/-- SHA-256 small sigma 0. -/
def smallSigma0 (x : Nat) : Nat := rotr32 7 x ^^^ rotr32 18 x ^^^ (x >>> 3)

/-- SHA-256 small sigma 1. -/
def smallSigma1 (x : Nat) : Nat := rotr32 17 x ^^^ rotr32 19 x ^^^ (x >>> 10)

/-- The 64 SHA-256 round constants (FIPS 180-4 §4.2.2, written in decimal). -/
def shaK : List Nat :=
  [1116352408, 1899447441, 3049323471, 3921009573, 961987163, 1508970993,
   2453635748, 2870763221, 3624381080, 310598401, 607225278, 1426881987,
   1925078388, 2162078206, 2614888103, 3248222580, 3835390401, 4022224774,
   264347078, 604807628, 770255983, 1249150122, 1555081692, 1996064986,
   2554220882, 2821834349, 2952996808, 3210313671, 3336571891, 3584528711,
   113926993, 338241895, 666307205, 773529912, 1294757372, 1396182291,
   1695183700, 1986661051, 2177026350, 2456956037, 2730485921, 2820302411,
   3259730800, 3345764771, 3516065817, 3600352804, 4094571909, 275423344,
   430227734, 506948616, 659060556, 883997877, 958139571, 1322822218,
   1537002063, 1747873779, 1955562222, 2024104815, 2227730452, 2361852424,
   2428436474, 2756734187, 3204031479, 3329325298]

/-- SHA-256 working state: eight 32-bit words. -/
structure Hash8 where
  a : Nat
  b : Nat
  c : Nat
  d : Nat
  e : Nat
  f : Nat
  g : Nat
  h : Nat
deriving Repr, DecidableEq

/-- SHA-256 initial hash value (FIPS 180-4 §5.3.3, written in decimal). -/
def shaH0 : Hash8 :=
  ⟨1779033703, 3144134277, 1013904242, 2773480762,
   1359893119, 2600822924, 528734635, 1541459225⟩

/-- One SHA-256 compression round with round constant `k` and schedule word `w`. -/
def shaRound (s : Hash8) (k w : Nat) : Hash8 :=
  let t1 := w32 (s.h + bigSigma1 s.e + shaCh s.e s.f s.g + k + w)
  let t2 := w32 (bigSigma0 s.a + shaMaj s.a s.b s.c)
  ⟨w32 (t1 + t2), s.a, s.b, s.c, w32 (s.d + t1), s.e, s.f, s.g⟩

/-- Extend a 16-word message block by `n` schedule words. -/
def extendSchedule (w : List Nat) : Nat → List Nat
  | 0 => w
  | n + 1 =>
    let ws := extendSchedule w n
    let t := ws.length
    ws ++ [w32 (smallSigma1 (ws.getD (t - 2) 0) + ws.getD (t - 7) 0 +
                smallSigma0 (ws.getD (t - 15) 0) + ws.getD (t - 16) 0)]

/-- Group a byte stream into big-endian 32-bit words. -/
def bytesToWords : List Nat → List Nat
  | b0 :: b1 :: b2 :: b3 :: rest =>
    (b0 * 16777216 + b1 * 65536 + b2 * 256 + b3) :: bytesToWords rest
  | _ => []

/-- Compress one 64-byte block into the running hash state. -/
def compressBlock (s : Hash8) (block : List Nat) : Hash8 :=
  let ws := extendSchedule (bytesToWords block) 48
  let t := (shaK.zip ws).foldl (fun st kw => shaRound st kw.1 kw.2) s
  ⟨w32 (s.a + t.a), w32 (s.b + t.b), w32 (s.c + t.c), w32 (s.d + t.d),
   w32 (s.e + t.e), w32 (s.f + t.f), w32 (s.g + t.g), w32 (s.h + t.h)⟩

/-- `k` bytes of `n`, big-endian. -/
def beBytes : Nat → Nat → List Nat
  | 0, _ => []
  | k + 1, n => ((n >>> (8 * k)) % 256) :: beBytes k n

/-- SHA-256 message padding: `0x80`, zeros to 56 mod 64, then the 64-bit bit length. -/
def padMessage (msg : List Nat) : List Nat :=
  let l := msg.length
  let z := (64 - (l + 9) % 64) % 64
  msg ++ [128] ++ List.replicate z 0 ++ beBytes 8 (8 * l)

/-- Split a byte stream into 64-byte blocks (fuel-driven; call with `fuel = l.length`). -/
def splitBlocks : Nat → List Nat → List (List Nat)
  | 0, _ => []
  | _, [] => []
  | fuel + 1, l => l.take 64 :: splitBlocks fuel (l.drop 64)

/-- The four big-endian bytes of a 32-bit word. -/
def wordBytes (w : Nat) : List Nat :=
  [(w >>> 24) % 256, (w >>> 16) % 256, (w >>> 8) % 256, w % 256]

/-- SHA-256 digest of a byte sequence: 32 bytes. -/
def sha256 (msg : List Nat) : List Nat :=
  let padded := padMessage msg
  let final := (splitBlocks padded.length padded).foldl compressBlock shaH0
  wordBytes final.a ++ wordBytes final.b ++ wordBytes final.c ++ wordBytes final.d ++
  wordBytes final.e ++ wordBytes final.f ++ wordBytes final.g ++ wordBytes final.h

/-! ## Hex encoding (the `hex` crate's `encode`: lowercase) and `strong_etag` -/

/-- Lowercase hexadecimal digit for a nibble. -/
def hexDigitChar (n : Nat) : Char :=
  if n < 10 then Char.ofNat (48 + n) else Char.ofNat (87 + n)

/-- Lowercase hex encoding of a byte sequence, two digits per byte. -/
def hexEncode (bytes : List Nat) : String :=
  ⟨bytes.foldr (fun b acc => hexDigitChar (b >>> 4) :: hexDigitChar (b % 16) :: acc) []⟩

/-- `strong_etag` from `src/main.rs`: a double quote, the lowercase hex SHA-256
digest of the payload, and a closing double quote. -/
def strong_etag (b : List Nat) : String :=
  "\"" ++ hexEncode (sha256 b) ++ "\""

/-! ## Header values and strings

An axum/http `HeaderValue` is a byte sequence; `HeaderValue::to_str` succeeds
iff every byte is visible ASCII (32–126) or horizontal tab (9), in which case
the bytes are read off as the characters of the string. -/

/-- The `http` crate's `is_visible_ascii` check used by `HeaderValue::to_str`. -/
def isVisibleAscii (b : Nat) : Bool := (32 ≤ b && b < 127) || b == 9

/-- `HeaderValue::to_str` of raw header bytes: `some` of the decoded string
when every byte passes `is_visible_ascii`, `none` otherwise. -/
def headerToStr (v : List Nat) : Option String :=
  if v.all isVisibleAscii then some ⟨v.map Char.ofNat⟩ else none

/-- The UTF-8 bytes of an ASCII string (one byte per character). -/
def strBytes (s : String) : List Nat := s.data.map Char.toNat

/-- Every character of the string passes the `to_str` byte check; holds for
every ETag string the program constructs. -/
def asciiEtag (s : String) : Bool := s.data.all fun c => isVisibleAscii c.toNat

/-! ## Data model: cache entries, application state, responses -/

/-- `Cached` from `src/main.rs`: payload bytes plus ETag string. -/
structure Cached where
  bytes : List Nat
  etag : String
deriving Repr, DecidableEq

/-- `AppState` from `src/main.rs`. The `RwLock<Option<Cached>>` remote slot is
modelled by its contents; handlers read one consistent snapshot of it. -/
structure AppState where
  local_cache : Cached
  remote_url : String
  remote_cache : Option Cached
deriving Repr, DecidableEq

/-- An HTTP response: status, explicitly-set headers in insertion order, body bytes. -/
structure HttpResponse where
  status : Nat
  headers : List (String × String)
  body : List Nat
deriving Repr, DecidableEq

/-- `StatusCode::NOT_MODIFIED.into_response()`: 304, no explicit headers, empty body. -/
def notModifiedResponse : HttpResponse := ⟨304, [], []⟩

/-- The 200 response every handler builds: `Content-Type`, `Cache-Control`,
`ETag` headers and the full payload as body. -/
def full200 (etag : String) (bytes : List Nat) : HttpResponse :=
  { status := 200
    headers := [("Content-Type", "application/json; charset=utf-8"),
                ("Cache-Control", "public, max-age=30"),
                ("ETag", etag)]
    body := bytes }

/-- The conditional-GET test each handler performs on its `If-None-Match`
header (absent, or present as raw bytes): present, `to_str` succeeds, and the
string equals the ETag. -/
def inmMatches (inm : Option (List Nat)) (etag : String) : Bool :=
  match inm with
  | some v =>
    match headerToStr v with
    | some s => s == etag
    | none => false
  | none => false

/-! ## Request handlers -/

/-- `local_people`: serve the local cache entry with conditional-GET support. -/
def local_people (state : AppState) (inm : Option (List Nat)) : HttpResponse :=
  let etag := state.local_cache.etag
  if inmMatches inm etag then notModifiedResponse
  else full200 etag state.local_cache.bytes

/-- `remote_people`: serve the remote cache entry when present (with
conditional-GET support), else fall back to `local_people`. -/
def remote_people (state : AppState) (inm : Option (List Nat)) : HttpResponse :=
  match state.remote_cache with
  | some c =>
    if inmMatches inm c.etag then notModifiedResponse
    else full200 c.etag c.bytes
  | none => local_people state inm

/-- `example_json`: serve the embedded example payload (a fixed byte blob
bundled with the binary, opaque here) with conditional-GET support. -/
def example_json (embedded : List Nat) (inm : Option (List Nat)) : HttpResponse :=
  let etag := strong_etag embedded
  if inmMatches inm etag then notModifiedResponse
  else full200 etag embedded

/-! ## Remote refresh -/

/-- Outcome of one outbound fetch, as seen by `refresh_once`: the send itself
fails, or a response arrives with a status code, an optional raw `ETag` header,
and a body whose read may itself fail (`resp.bytes().await?`). -/
inductive FetchResult where
  | failed : FetchResult
  | response (status : Nat) (etagHeader : Option (List Nat)) (body : Option (List Nat)) : FetchResult
deriving Repr, DecidableEq

/-- The request `refresh_once` sends: the configured URL, with `If-None-Match`
set to the current remote ETag exactly when the remote slot is warm. -/
def refresh_request (state : AppState) : String × Option String :=
  (state.remote_url, state.remote_cache.map (·.etag))

/-- `refresh_once`: given the current remote slot and the fetch outcome,
returns the new remote slot and the `anyhow::Result` outcome. On 200 the slot
is replaced by the body and its ETag (response header if readable, else
`strong_etag` of the body); on 304 nothing changes; otherwise the attempt
errors and the slot is untouched. -/
def refresh_once (slot : Option Cached) (result : FetchResult) :
    Option Cached × Except String Unit :=
  match result with
  | .failed => (slot, .error "send failed")
  | .response status etagHeader body =>
    if status == 200 then
      let etagHdr := etagHeader.bind headerToStr
      match body with
      | none => (slot, .error "body read failed")
      | some bytes =>
        let etag := etagHdr.getD (strong_etag bytes)
        (some ⟨bytes, etag⟩, .ok ())
    else if status == 304 then (slot, .ok ())
    else (slot, .error "unexpected status")

/-- The remote-slot update performed by one refresh attempt (the task logs and
discards the `Except`, so only the slot component drives the next tick). -/
def refreshStep (slot : Option Cached) (r : FetchResult) : Option Cached :=
  (refresh_once slot r).1

/-- One refresh attempt as a whole-state transformer: `refresh_once` writes
only `state.remote_cache`; every other field is untouched. -/
def stepState (state : AppState) (r : FetchResult) : AppState :=
  { state with remote_cache := refreshStep state.remote_cache r }

/-- `load_local_cache`: the `fs::read` outcome is passed explicitly. On
success the entry is the file's bytes with their fingerprint; on any error the
entry is the embedded sample payload with its fingerprint. Never fails. -/
def load_local_cache (readResult : Except String (List Nat))
    (embeddedSample : List Nat) : Cached :=
  match readResult with
  | .ok bytes => ⟨bytes, strong_etag bytes⟩
  | .error _ => ⟨embeddedSample, strong_etag embeddedSample⟩

/-! ## The refresh task as a trace over tick indices

`refresh_task` performs one attempt immediately (from the initially empty
slot), then one attempt per timer tick, forever, ignoring failures. Attempt
`n` consumes `results n`; `taskSlot results n` is the remote slot after
attempt `n`. -/

/-- Remote slot contents after attempt `n` (attempt 0 is the initial warm-up,
starting from the empty slot created in `main`). -/
def taskSlot (results : Nat → FetchResult) : Nat → Option Cached
  | 0 => refreshStep none (results 0)
  | n + 1 => refreshStep (taskSlot results n) (results (n + 1))

/-- Remote slot contents just before attempt `n`. -/
def slotBefore (results : Nat → FetchResult) : Nat → Option Cached
  | 0 => none
  | n + 1 => taskSlot results n

/-- The request sent by attempt `n`: the remote URL with `If-None-Match`
carrying the ETag of the slot contents before the attempt, if any. -/
def attemptRequest (url : String) (results : Nat → FetchResult) (n : Nat) :
    String × Option String :=
  (url, (slotBefore results n).map (·.etag))

/-- The requests issued by the refresher from startup through tick `n`:
attempt 0 immediately at startup, then one per tick. -/
def taskTrace (url : String) (results : Nat → FetchResult) (n : Nat) :
    List (String × Option String) :=
  (List.range (n + 1)).map (attemptRequest url results)

/-! ## Helper lemmas -/

theorem toNat_ofNat_of_visible {b : Nat} (h : isVisibleAscii b = true) :
    (Char.ofNat b).toNat = b := by
  have hb : b < 55296 := by
    simp only [isVisibleAscii, Bool.or_eq_true, Bool.and_eq_true, decide_eq_true_eq,
      beq_iff_eq] at h
    omega
  rw [Char.ofNat, dif_pos (Or.inl hb)]
  rfl

theorem strBytes_mk (l : List Char) : strBytes ⟨l⟩ = l.map Char.toNat := rfl

theorem all_map_general {α β : Type} (l : List α) (f : α → β) (p : β → Bool) :
    (l.map f).all p = l.all fun a => p (f a) := by
  induction l with
  | nil => rfl
  | cons a t ih => simp [List.all_cons, ih]

theorem headerToStr_strBytes {s : String} (h : asciiEtag s = true) :
    headerToStr (strBytes s) = some s := by
  have hall : (strBytes s).all isVisibleAscii = true := by
    rw [strBytes, all_map_general]
    exact h
  rw [headerToStr, if_pos hall]
  congr 1
  apply String.ext
  show (s.data.map Char.toNat).map Char.ofNat = s.data
  simp only [List.map_map, Function.comp_def, Char.ofNat_toNat, List.map_id']

theorem strBytes_all_visible {s : String} (h : asciiEtag s = true) :
    (strBytes s).all isVisibleAscii = true := by
  rw [strBytes, all_map_general]
  exact h

theorem inmMatches_some_iff {etag : String} (hv : asciiEtag etag = true) (v : List Nat) :
    inmMatches (some v) etag = true ↔ v = strBytes etag := by
  constructor
  · intro h
    rw [inmMatches] at h
    by_cases hall : v.all isVisibleAscii = true
    · rw [headerToStr, if_pos hall] at h
      have hs : (⟨v.map Char.ofNat⟩ : String) = etag := by
        simpa using h
      have : strBytes etag = v := by
        rw [← hs, strBytes_mk, List.map_map]
        have : ∀ b ∈ v, (Char.toNat ∘ Char.ofNat) b = id b := by
          intro b hb
          exact toNat_ofNat_of_visible (by
            rw [List.all_eq_true] at hall
            exact hall b hb)
        rw [List.map_congr_left this, List.map_id]
      exact this.symm
    · rw [headerToStr, if_neg hall] at h
      exact absurd h (by simp)
  · intro h
    subst h
    rw [inmMatches, headerToStr_strBytes hv]
    simp

theorem inmMatches_of_not_visible {v : List Nat} (h : v.all isVisibleAscii = false)
    (etag : String) : inmMatches (some v) etag = false := by
  rw [inmMatches, headerToStr, if_neg (by simp [h])]

theorem wordBytes_lt (w : Nat) : ∀ x ∈ wordBytes w, x < 256 := by
  intro x hx
  simp only [wordBytes, List.mem_cons, List.not_mem_nil, or_false] at hx
  rcases hx with rfl | rfl | rfl | rfl <;> exact Nat.mod_lt _ (by norm_num)

theorem sha256_lt (msg : List Nat) : ∀ x ∈ sha256 msg, x < 256 := by
  intro x hx
  rw [sha256] at hx
  simp only [List.mem_append] at hx
  rcases hx with ((((((h | h) | h) | h) | h) | h) | h) | h <;> exact wordBytes_lt _ _ h

theorem sha256_length (msg : List Nat) : (sha256 msg).length = 32 := by
  rw [sha256]
  simp [wordBytes, List.length_append]

theorem hexEncode_cons (b : Nat) (t : List Nat) :
    hexEncode (b :: t) = ⟨hexDigitChar (b >>> 4) :: hexDigitChar (b % 16) :: (hexEncode t).data⟩ := rfl

theorem hexEncode_length (l : List Nat) : (hexEncode l).length = 2 * l.length := by
  induction l with
  | nil => rfl
  | cons b t ih =>
    rw [hexEncode_cons, String.length_mk, List.length_cons, List.length_cons]
    rw [String.length] at ih
    rw [ih, List.length_cons]
    ring

theorem hexDigitChar_mem {n : Nat} (h : n < 16) :
    hexDigitChar n ∈ "0123456789abcdef".data := by
  interval_cases n <;> decide

theorem hexDigit_visible : ∀ c ∈ "0123456789abcdef".data, isVisibleAscii c.toNat = true := by
  decide

theorem hexEncode_mem {l : List Nat} (hl : ∀ x ∈ l, x < 256) :
    ∀ c ∈ (hexEncode l).data, c ∈ "0123456789abcdef".data := by
  induction l with
  | nil => intro c hc; simp [hexEncode] at hc
  | cons b t ih =>
    intro c hc
    rw [hexEncode_cons] at hc
    have hb : b < 256 := hl b (List.mem_cons_self b t)
    rcases hc with _ | ⟨_, hc⟩
    · exact hexDigitChar_mem (by rw [Nat.shiftRight_eq_div_pow]; omega)
    · rcases hc with _ | ⟨_, hc⟩
      · exact hexDigitChar_mem (Nat.mod_lt _ (by norm_num))
      · exact ih (fun x hx => hl x (List.mem_cons_of_mem b hx)) c hc

theorem asciiEtag_strong_etag (b : List Nat) : asciiEtag (strong_etag b) = true := by
  rw [asciiEtag, List.all_eq_true]
  intro c hc
  rw [strong_etag] at hc
  simp only [String.data_append, List.mem_append] at hc
  rcases hc with hc | hc
  · rcases hc with hc | hc
    · have : c = '"' := by simpa using hc
      subst this; decide
    · exact hexDigit_visible c (hexEncode_mem (sha256_lt b) c hc)
  · have : c = '"' := by simpa using hc
    subst this; decide

theorem strong_etag_length (b : List Nat) : (strong_etag b).length = 66 := by
  rw [strong_etag, String.length_append, String.length_append,
    hexEncode_length, sha256_length]
  rfl

theorem strong_etag_ne_star (b : List Nat) : strong_etag b ≠ "*" := by
  intro h
  have h66 := strong_etag_length b
  rw [h] at h66
  exact absurd h66 (by decide)

theorem full200_ne_notModified (etag : String) (bytes : List Nat) :
    full200 etag bytes ≠ notModifiedResponse := by
  intro h
  have := congrArg HttpResponse.status h
  simp [full200, notModifiedResponse] at this

theorem serve_eq_notModified_iff {etag : String} (hv : asciiEtag etag = true)
    (bytes v : List Nat) :
    ((if inmMatches (some v) etag then notModifiedResponse else full200 etag bytes) =
      notModifiedResponse ↔ v = strBytes etag) := by
  constructor
  · intro h
    by_cases hm : inmMatches (some v) etag = true
    · exact (inmMatches_some_iff hv v).1 hm
    · rw [if_neg (by simp [hm])] at h
      exact absurd h (full200_ne_notModified _ _)
  · intro h
    rw [if_pos (by simp [(inmMatches_some_iff hv v).2 h])]

theorem serve_eq_full_of_ne {etag : String} (hv : asciiEtag etag = true)
    (bytes v : List Nat) (h : v ≠ strBytes etag) :
    (if inmMatches (some v) etag then notModifiedResponse else full200 etag bytes) =
      full200 etag bytes := by
  rw [if_neg]
  intro hm
  exact h ((inmMatches_some_iff hv v).1 (by simpa using hm))

theorem headerToStr_strBytes_eq {s t : String}
    (h : headerToStr (strBytes s) = some t) : t = s := by
  rw [headerToStr] at h
  split at h
  · injection h with h
    rw [← h]
    apply String.ext
    show (s.data.map Char.toNat).map Char.ofNat = s.data
    simp only [List.map_map, Function.comp_def, Char.ofNat_toNat, List.map_id']
  · cases h

theorem inmMatches_strBytes_ne {s etag : String} (h : s ≠ etag) :
    inmMatches (some (strBytes s)) etag = false := by
  rw [inmMatches]
  cases hd : headerToStr (strBytes s) with
  | none => rfl
  | some t =>
    have ht : t = s := headerToStr_strBytes_eq hd
    subst ht
    simpa using h

theorem serve_full_of_str_ne {s etag : String} (bytes : List Nat) (h : s ≠ etag) :
    (if inmMatches (some (strBytes s)) etag then notModifiedResponse
     else full200 etag bytes) = full200 etag bytes := by
  rw [inmMatches_strBytes_ne h]
  simp

theorem remote_people_some (st : AppState) (c : Cached) (inm : Option (List Nat))
    (h : st.remote_cache = some c) :
    remote_people st inm =
      if inmMatches inm c.etag then notModifiedResponse else full200 c.etag c.bytes := by
  rw [remote_people, h]

theorem remote_people_of_none (st : AppState) (inm : Option (List Nat))
    (h : st.remote_cache = none) :
    remote_people st inm = local_people st inm := by
  rw [remote_people, h]

/-! ## Claims -/

/-- Claim C1: for every cache entry (whose ETag passes the header-byte check,
as every ETag the program constructs does) and every `If-None-Match` value
`v`, each resource handler — local, remote-when-warm, and example — returns
304 Not Modified with an empty body iff `v` is byte-exactly the entry's ETag
string, and otherwise returns 200 with the entry's full bytes as body and the
headers `Content-Type: application/json; charset=utf-8`,
`Cache-Control: public, max-age=30`, and `ETag` equal to the entry's ETag
(the contents of `full200`). -/
theorem C1_conditional_get (st : AppState) (c : Cached) (embedded v : List Nat)
    (hl : asciiEtag st.local_cache.etag = true) (hr : asciiEtag c.etag = true) :
    (local_people st (some v) = notModifiedResponse ↔ v = strBytes st.local_cache.etag) ∧
    (v ≠ strBytes st.local_cache.etag →
      local_people st (some v) = full200 st.local_cache.etag st.local_cache.bytes) ∧
    (remote_people { st with remote_cache := some c } (some v) = notModifiedResponse ↔
      v = strBytes c.etag) ∧
    (v ≠ strBytes c.etag →
      remote_people { st with remote_cache := some c } (some v) = full200 c.etag c.bytes) ∧
    (example_json embedded (some v) = notModifiedResponse ↔
      v = strBytes (strong_etag embedded)) ∧
    (v ≠ strBytes (strong_etag embedded) →
      example_json embedded (some v) = full200 (strong_etag embedded) embedded) ∧
    notModifiedResponse.body = [] ∧ notModifiedResponse.status = 304 ∧
    (full200 st.local_cache.etag st.local_cache.bytes).body = st.local_cache.bytes ∧
    (full200 st.local_cache.etag st.local_cache.bytes).headers =
      [("Content-Type", "application/json; charset=utf-8"),
       ("Cache-Control", "public, max-age=30"),
       ("ETag", st.local_cache.etag)] := by
  refine ⟨?_, ?_, ?_, ?_, ?_, ?_, rfl, rfl, rfl, rfl⟩
  · exact serve_eq_notModified_iff hl st.local_cache.bytes v
  · exact serve_eq_full_of_ne hl st.local_cache.bytes v
  · exact serve_eq_notModified_iff hr c.bytes v
  · exact serve_eq_full_of_ne hr c.bytes v
  · exact serve_eq_notModified_iff (asciiEtag_strong_etag embedded) embedded v
  · exact serve_eq_full_of_ne (asciiEtag_strong_etag embedded) embedded v

/-- Witness for C1 at a concrete state: the non-matching validator `[48]`
(the byte `'0'`) yields the full 200 response. -/
theorem C1_witness :
    local_people ⟨⟨[1], "\"aa\""⟩, "u", none⟩ (some [48]) = full200 "\"aa\"" [1] :=
  (C1_conditional_get ⟨⟨[1], "\"aa\""⟩, "u", none⟩ ⟨[2], "\"bb\""⟩ [] [48]
    (by decide) (by decide)).2.1 (by decide)

/-- Claim C2: whenever the remote cache slot is `None`, the `/people` handler
returns a response identical — same status, headers and body — to the
`/local/people` handler for the same `If-None-Match` header, including its
conditional-GET evaluation against the local entry's ETag. -/
theorem C2_remote_fallback (state : AppState) (inm : Option (List Nat))
    (h : state.remote_cache = none) :
    remote_people state inm = local_people state inm := by
  rw [remote_people, h]

/-- Witness for C2 at a concrete empty-slot state. -/
theorem C2_witness :
    remote_people ⟨⟨[1], "\"aa\""⟩, "u", none⟩ (some [48]) =
      local_people ⟨⟨[1], "\"aa\""⟩, "u", none⟩ (some [48]) :=
  C2_remote_fallback ⟨⟨[1], "\"aa\""⟩, "u", none⟩ (some [48]) rfl

/-- Counterexample to claim C3 as stated: a 200 response whose `ETag` header
is present but not decodable by `HeaderValue::to_str` (here the single byte
200, legal in a header value but not visible ASCII). The code stores the
fingerprint of the body, not the supplied header: the stored ETag has 66
bytes, not the header's one byte. -/
theorem C3_counterexample :
    (refresh_once none (.response 200 (some [200]) (some []))).1 =
      some ⟨[], strong_etag []⟩ ∧
    strBytes (strong_etag []) ≠ [200] := by
  constructor
  · rfl
  · intro h
    have hlen := congrArg List.length h
    rw [strBytes, List.length_map] at hlen
    have h66 := strong_etag_length []
    rw [String.length] at h66
    rw [h66] at hlen
    exact absurd hlen (by decide)

/-- Claim C3 (amended): a single refresh attempt sends `If-None-Match`
carrying the current remote ETag exactly when the slot is warm, and on HTTP
200 replaces the whole slot with an entry holding the response body and, as
ETag, the response's `ETag` header when present and decodable as a
visible-ASCII string, else the fingerprint of the body. -/
theorem C3_refresh_update (st : AppState) (slot : Option Cached) (c : Cached)
    (hdr : Option (List Nat)) (bytes : List Nat) (s : String) :
    (refresh_request st).2 = st.remote_cache.map (·.etag) ∧
    (st.remote_cache = some c → (refresh_request st).2 = some c.etag) ∧
    (st.remote_cache = none → (refresh_request st).2 = none) ∧
    (refresh_once slot (.response 200 hdr (some bytes))).1 =
      some ⟨bytes, (hdr.bind headerToStr).getD (strong_etag bytes)⟩ ∧
    (hdr.bind headerToStr = some s →
      (refresh_once slot (.response 200 hdr (some bytes))).1 = some ⟨bytes, s⟩) ∧
    (hdr.bind headerToStr = none →
      (refresh_once slot (.response 200 hdr (some bytes))).1 =
        some ⟨bytes, strong_etag bytes⟩) := by
  have base : (refresh_once slot (.response 200 hdr (some bytes))).1 =
      some ⟨bytes, (hdr.bind headerToStr).getD (strong_etag bytes)⟩ := rfl
  refine ⟨rfl, ?_, ?_, rfl, ?_, ?_⟩
  · intro h
    rw [refresh_request, h]
    rfl
  · intro h
    rw [refresh_request, h]
    rfl
  · intro h
    rw [base, h]
    rfl
  · intro h
    rw [base, h]
    rfl

/-- Witness for C3 (amended) at a concrete warm state: the request carries
`If-None-Match: "bb"`, and a 200 response with a decodable `ETag` header
stores exactly that header string. -/
theorem C3_witness :
    (refresh_request ⟨⟨[1], "\"aa\""⟩, "u", some ⟨[2], "\"bb\""⟩⟩).2 = some "\"bb\"" ∧
    (refresh_once (some ⟨[2], "\"bb\""⟩)
        (.response 200 (some (strBytes "\"cc\"")) (some [7]))).1 =
      some ⟨[7], "\"cc\""⟩ := by
  constructor
  · exact (C3_refresh_update ⟨⟨[1], "\"aa\""⟩, "u", some ⟨[2], "\"bb\""⟩⟩ none
      ⟨[2], "\"bb\""⟩ none [] "").2.1 rfl
  · exact (C3_refresh_update ⟨⟨[1], "\"aa\""⟩, "u", none⟩ (some ⟨[2], "\"bb\""⟩)
      ⟨[2], "\"bb\""⟩ (some (strBytes "\"cc\"")) [7] "\"cc\"").2.2.2.2.1 (by decide)

/-- Claim C4: a refresh attempt that yields HTTP 304, any non-200 status, a
send failure, or a body-read failure leaves the remote slot exactly as it
was, and the failure never stops the refresher: the slot after tick `n + 1`
is always computed from the slot after tick `n`, whatever the earlier
outcomes were. -/
theorem C4_refresh_failure_preserves (slot : Option Cached) (status : Nat)
    (hdr : Option (List Nat)) (body : Option (List Nat))
    (results : Nat → FetchResult) (n : Nat) (hs : status ≠ 200) :
    (refresh_once slot .failed).1 = slot ∧
    (refresh_once slot (.response 304 hdr body)).1 = slot ∧
    (refresh_once slot (.response status hdr body)).1 = slot ∧
    (refresh_once slot (.response 200 hdr none)).1 = slot ∧
    taskSlot results (n + 1) = refreshStep (taskSlot results n) (results (n + 1)) := by
  refine ⟨rfl, ?_, ?_, rfl, rfl⟩
  · rw [refresh_once]
    split
    · simp_all
    · split
      · rfl
      · rfl
  · have h200 : (status == 200) = false := by simpa using hs
    rw [refresh_once]
    rw [if_neg (by simp [h200])]
    split
    · rfl
    · rfl

/-- Witness for C4: a 500 response against a warm slot leaves it untouched. -/
theorem C4_witness :
    (refresh_once (some ⟨[2], "\"bb\""⟩) (.response 500 none none)).1 =
      some ⟨[2], "\"bb\""⟩ :=
  (C4_refresh_failure_preserves (some ⟨[2], "\"bb\""⟩) 500 none none
    (fun _ => .failed) 0 (by decide)).2.2.1

/-- Claim C5: `strong_etag` is a total function equal, for every byte
sequence including the empty one, to the lowercase hex SHA-256 digest of the
input wrapped in double quotes: 66 characters in all, the 64 inner ones drawn
from `0123456789abcdef`; equal inputs give equal outputs. -/
theorem C5_fingerprint (b : List Nat) :
    strong_etag b = "\"" ++ hexEncode (sha256 b) ++ "\"" ∧
    (strong_etag b).length = 66 ∧
    (hexEncode (sha256 b)).length = 64 ∧
    ((hexEncode (sha256 b)).data.all fun c =>
      decide (c ∈ "0123456789abcdef".data)) = true ∧
    ∀ b2 : List Nat, b = b2 → strong_etag b = strong_etag b2 := by
  refine ⟨rfl, strong_etag_length b, ?_, ?_, ?_⟩
  · rw [hexEncode_length, sha256_length]
  · rw [List.all_eq_true]
    intro c hc
    simpa using hexEncode_mem (sha256_lt b) c hc
  · intro b2 h
    rw [h]

/-- Witness for C5: determinism instantiated at the empty byte sequence. -/
theorem C5_witness : strong_etag [] = strong_etag [] :=
  (C5_fingerprint []).2.2.2.2 [] rfl

/-- Claim C6: `load_local_cache` never fails: a successful read yields an
entry of the file's bytes and their fingerprint, and any read error yields an
entry of the embedded sample's bytes and their fingerprint, so the local slot
is always populated with a usable, fingerprint-consistent entry. -/
theorem C6_load_local_total (bytes emb : List Nat) (e : String) :
    load_local_cache (.ok bytes) emb = ⟨bytes, strong_etag bytes⟩ ∧
    load_local_cache (.error e) emb = ⟨emb, strong_etag emb⟩ ∧
    ∀ r : Except String (List Nat),
      (load_local_cache r emb).etag = strong_etag (load_local_cache r emb).bytes := by
  refine ⟨rfl, rfl, ?_⟩
  intro r
  cases r with
  | ok _ => rfl
  | error _ => rfl

/-- Claim C7: the local slot is fingerprint-consistent at startup
(`load_local_cache` on either path), the example handler always serves the
fingerprint of the bytes it serves, the only state-mutating operation (a
refresh step) never reassigns the local slot, and when the local slot is
consistent the local handler's 200 response carries the fingerprint of its
own body. -/
theorem C7_etag_consistency (st : AppState) (r : FetchResult)
    (emb : List Nat) (inm : Option (List Nat)) :
    (∀ rr : Except String (List Nat),
      (load_local_cache rr emb).etag = strong_etag (load_local_cache rr emb).bytes) ∧
    (stepState st r).local_cache = st.local_cache ∧
    (stepState st r).remote_url = st.remote_url ∧
    (example_json emb inm = notModifiedResponse ∨
      example_json emb inm = full200 (strong_etag emb) emb) ∧
    (st.local_cache.etag = strong_etag st.local_cache.bytes →
      local_people st inm = notModifiedResponse ∨
      local_people st inm = full200 (strong_etag st.local_cache.bytes) st.local_cache.bytes) := by
  refine ⟨?_, rfl, rfl, ?_, ?_⟩
  · intro rr
    cases rr with
    | ok _ => rfl
    | error _ => rfl
  · rw [example_json]
    split
    · exact Or.inl rfl
    · exact Or.inr rfl
  · intro hcons
    rw [local_people, ← hcons]
    split
    · exact Or.inl rfl
    · exact Or.inr rfl

/-- Witness for C7: at a consistent concrete local slot the 200 response
carries the fingerprint of its body. -/
theorem C7_witness :
    local_people ⟨⟨[1], strong_etag [1]⟩, "u", none⟩ none =
      full200 (strong_etag [1]) [1] := by
  rcases (C7_etag_consistency ⟨⟨[1], strong_etag [1]⟩, "u", none⟩ .failed [] none).2.2.2.2
      rfl with h | h
  · exact absurd (show full200 (strong_etag [1]) [1] = notModifiedResponse from h)
      (full200_ne_notModified _ _)
  · exact h

/-- Claim C8: a present but malformed `If-None-Match` header (one whose bytes
`HeaderValue::to_str` rejects) is treated as a non-match by every handler:
each serves its full 200 response, never an error. -/
theorem C8_malformed_inm (st : AppState) (c : Cached) (embedded v : List Nat)
    (h : v.all isVisibleAscii = false) :
    local_people st (some v) = full200 st.local_cache.etag st.local_cache.bytes ∧
    remote_people { st with remote_cache := some c } (some v) = full200 c.etag c.bytes ∧
    remote_people { st with remote_cache := none } (some v) =
      full200 st.local_cache.etag st.local_cache.bytes ∧
    example_json embedded (some v) = full200 (strong_etag embedded) embedded := by
  have hm : ∀ etag, inmMatches (some v) etag = false := fun etag =>
    inmMatches_of_not_visible h etag
  refine ⟨?_, ?_, ?_, ?_⟩
  · rw [local_people, hm, if_neg (by simp)]
  · rw [remote_people_some _ c _ rfl, hm, if_neg (by simp)]
  · rw [remote_people_of_none _ _ rfl, local_people, hm, if_neg (by simp)]
  · rw [example_json, hm, if_neg (by simp)]

/-- Witness for C8: the single NUL byte is not visible ASCII and yields the
full 200 response from the local handler. -/
theorem C8_witness :
    local_people ⟨⟨[1], "\"aa\""⟩, "u", none⟩ (some [0]) = full200 "\"aa\"" [1] :=
  (C8_malformed_inm ⟨⟨[1], "\"aa\""⟩, "u", none⟩ ⟨[2], "\"bb\""⟩ [] [0] (by decide)).1

/-- Claim C9: the refresher makes exactly one attempt immediately at startup
(from the cold slot) and exactly one more per timer tick, forever: through
tick `n` the request trace has `n + 1` entries, starts with the cold startup
request, and each tick extends it by exactly one attempt computed from the
previous slot — for every sequence of outcomes, so no failure ever prevents a
later attempt. -/
theorem C9_refresh_schedule (url : String) (results : Nat → FetchResult) (n : Nat) :
    (taskTrace url results n).length = n + 1 ∧
    (taskTrace url results n).head? = some (url, none) ∧
    taskTrace url results (n + 1) =
      taskTrace url results n ++ [attemptRequest url results (n + 1)] ∧
    taskSlot results (n + 1) = refreshStep (taskSlot results n) (results (n + 1)) := by
  refine ⟨?_, ?_, ?_, rfl⟩
  · rw [taskTrace, List.length_map, List.length_range]
  · rw [taskTrace, List.range_succ_eq_map]
    rfl
  · rw [taskTrace, taskTrace, List.range_succ, List.map_append]
    rfl

theorem append_comma_ne_left (etag rest : String) : etag ++ ", " ++ rest ≠ etag := by
  intro h
  have hlen := congrArg String.length h
  rw [String.length_append, String.length_append] at hlen
  have h2 : (", ").length = 2 := rfl
  omega

theorem append_comma_ne_right (etag rest : String) : rest ++ ", " ++ etag ≠ etag := by
  intro h
  have hlen := congrArg String.length h
  rw [String.length_append, String.length_append] at hlen
  have h2 : (", ").length = 2 := rfl
  omega

/-- Claim C10: the 304 decision compares the whole `If-None-Match` value as
one string against the entry's ETag: a match forces the decoded header to be
exactly the ETag, so the wildcard `*` and comma-separated validator lists
that contain the current ETag never match and always draw the full 200
response, from every handler. -/
theorem C10_whole_header_comparison (st : AppState) (c : Cached)
    (b embedded : List Nat) (rest : String)
    (hl : st.local_cache.etag = strong_etag b) (hq : c.etag ≠ "*") :
    (∀ v : List Nat, ∀ etag : String, inmMatches (some v) etag = true →
      headerToStr v = some etag) ∧
    local_people st (some (strBytes "*")) =
      full200 st.local_cache.etag st.local_cache.bytes ∧
    remote_people { st with remote_cache := some c } (some (strBytes "*")) =
      full200 c.etag c.bytes ∧
    example_json embedded (some (strBytes "*")) =
      full200 (strong_etag embedded) embedded ∧
    local_people st (some (strBytes (st.local_cache.etag ++ ", " ++ rest))) =
      full200 st.local_cache.etag st.local_cache.bytes ∧
    local_people st (some (strBytes (rest ++ ", " ++ st.local_cache.etag))) =
      full200 st.local_cache.etag st.local_cache.bytes ∧
    remote_people { st with remote_cache := some c }
        (some (strBytes (c.etag ++ ", " ++ rest))) = full200 c.etag c.bytes ∧
    example_json embedded (some (strBytes (strong_etag embedded ++ ", " ++ rest))) =
      full200 (strong_etag embedded) embedded := by
  refine ⟨?_, ?_, ?_, ?_, ?_, ?_, ?_, ?_⟩
  · intro v etag hm
    rw [inmMatches] at hm
    cases hd : headerToStr v with
    | none => rw [hd] at hm; exact absurd hm (by simp)
    | some s =>
      rw [hd] at hm
      have : s = etag := by simpa using hm
      rw [this]
  · rw [local_people, hl]
    exact serve_full_of_str_ne _ (Ne.symm (strong_etag_ne_star b))
  · rw [remote_people_some _ c _ rfl]
    exact serve_full_of_str_ne _ fun h => hq h.symm
  · rw [example_json]
    exact serve_full_of_str_ne _ fun h => strong_etag_ne_star embedded h.symm
  · rw [local_people]
    exact serve_full_of_str_ne _ (append_comma_ne_left _ rest)
  · rw [local_people]
    exact serve_full_of_str_ne _ (append_comma_ne_right _ rest)
  · rw [remote_people_some _ c _ rfl]
    exact serve_full_of_str_ne _ (append_comma_ne_left _ rest)
  · rw [example_json]
    exact serve_full_of_str_ne _ (append_comma_ne_left _ rest)

/-- Witness for C10: at a concrete state whose local ETag is the fingerprint
of `[]`, the wildcard validator draws the full 200 response. -/
theorem C10_witness :
    local_people ⟨⟨[5], strong_etag []⟩, "u", none⟩ (some (strBytes "*")) =
      full200 (strong_etag []) [5] :=
  (C10_whole_header_comparison ⟨⟨[5], strong_etag []⟩, "u", none⟩ ⟨[2], "\"bb\""⟩
    [] [] "x" rfl (by decide)).2.1
